import Mathlib

/-
  Verification of the DBOS durable-execution core (dbos-transact-py).

  Shallow embedding of the persistence layer in
    src/dbos/system_database.py, src/dbos/application_database.py,
    src/dbos/queue.py and src/dbos/_recovery.py.
  Durable tables are modelled as lists of row structures; each database
  method becomes a Lean function on this state.  A method that can raise a
  mapped database error returns `Except DBErr`; returning `.error` models
  the transaction rolling back (the caller keeps the old state).
-/

namespace DBOS

/-- Application-level values carried through the serializer.  Rationals stand in
for the floating-point end-times journaled by `sleep`. -/
inductive Value where
  | null : Value
  | vstr : String → Value
  | vint : Int → Value
  | vrat : ℚ → Value
  deriving DecidableEq, Repr

/-- Modelled from the spec: §4.1 Serializer (`dbos/utils.py` is referenced by the
source but is not under src/).  The spec requires only an opaque, round-tripping
encoding of application values to text blobs, with the literal `null` decoding to
the absence marker; we therefore model blobs at the value level, so that
serialize and deserialize round-trip definitionally and `Value.null` is the
absence marker. -/
def serialize (v : Value) : Value := v

/-- Modelled from the spec: §4.1 Serializer, inverse of `serialize`. -/
def deserialize (v : Value) : Value := v

/-- Error taxonomy of dbos.error (`dbos/error.py` is not under src/; classes are
named at the import sites in src and in spec §7). -/
inductive DBErr where
  | DBOSWorkflowConflictIDError : String → DBErr
  | DBOSNonExistentWorkflowError : String → DBErr
  | AssertionFailure : String → DBErr
  | TypeFailure : DBErr
  deriving DecidableEq, Repr

/-- `WorkflowStatusString` (src/dbos/system_database.py lines 25-33). -/
inductive WorkflowStatusString where
  | PENDING
  | SUCCESS
  | ERROR
  | RETRIES_EXCEEDED
  | CANCELLED
  | ENQUEUED
  deriving DecidableEq, Repr

/-- Row of the `workflow_status` table.  Modelled from the spec: §3 (the schemas
module `dbos/schemas/system_database.py` is not under src/); only the columns
touched by the operations verified here are carried. -/
structure WorkflowStatusRow where
  workflow_uuid : String
  status : WorkflowStatusString
  name : String
  output : Option Value := none
  error : Option Value := none
  recovery_attempts : Nat := 0
  executor_id : Option String := none
  queue_name : Option String := none
  deriving DecidableEq, Repr

/-- Row of the `workflow_inputs` table (spec §3: PK `workflow_uuid`,
FK to `workflow_status`). -/
structure WorkflowInputsRow where
  workflow_uuid : String
  inputs : Value
  deriving DecidableEq, Repr

/-- Row of the `operation_outputs` table (spec §3: PK `(workflow_uuid, function_id)`). -/
structure OperationOutputsRow where
  workflow_uuid : String
  function_id : Nat
  output : Option Value
  error : Option Value
  deriving DecidableEq, Repr

/-- Row of the `notifications` table (spec §3: FK `destination_uuid`,
no primary key, `created_at_epoch_ms` server-set). -/
structure NotificationsRow where
  destination_uuid : String
  topic : String
  message : Value
  created_at_epoch_ms : Nat
  deriving DecidableEq, Repr

/-- Row of the `job_queue` table (spec §3: PK `workflow_uuid`). -/
structure JobQueueRow where
  workflow_uuid : String
  queue_name : String
  created_at_epoch_ms : Nat
  deriving DecidableEq, Repr

/-- The durable state of the system database. -/
structure SysDB where
  workflow_status : List WorkflowStatusRow
  workflow_inputs : List WorkflowInputsRow
  operation_outputs : List OperationOutputsRow
  notifications : List NotificationsRow
  job_queue : List JobQueueRow
  deriving DecidableEq, Repr

/-- `OperationResultInternal` (src/dbos/system_database.py lines 70-74). -/
structure OperationResultInternal where
  workflow_uuid : String
  function_id : Nat
  output : Option Value
  error : Option Value
  deriving DecidableEq, Repr

/-- `RecordedResult` (src/dbos/system_database.py lines 65-67). -/
structure RecordedResult where
  output : Option Value
  error : Option Value
  deriving DecidableEq, Repr

/-- `dbos_null_topic` (src/dbos/system_database.py line 138). -/
def dbos_null_topic : String := "__null__topic__"

/-- Does `operation_outputs` already hold a row for this primary key?  An insert
with a duplicate key raises SQLSTATE 23505. -/
def hasOpRow (tbl : List OperationOutputsRow) (wf : String) (fn : Nat) : Bool :=
  tbl.any fun r => decide (r.workflow_uuid = wf ∧ r.function_id = fn)

/-- `SystemDatabase.record_operation_result` (src/dbos/system_database.py lines
573-594).  The source asserts `error is None or output is None`, inserts into
`operation_outputs`, and maps a 23505 unique violation to
`DBOSWorkflowConflictIDError`. -/
def record_operation_result (tbl : List OperationOutputsRow)
    (result : OperationResultInternal) : Except DBErr (List OperationOutputsRow) :=
  if result.error = none ∨ result.output = none then
    if hasOpRow tbl result.workflow_uuid result.function_id then
      .error (.DBOSWorkflowConflictIDError result.workflow_uuid)
    else
      .ok (tbl ++ [{ workflow_uuid := result.workflow_uuid,
                     function_id := result.function_id,
                     output := result.output, error := result.error }])
  else
    .error (.AssertionFailure "Only one of error or output can be set")

/-- `SystemDatabase.check_operation_execution` (src/dbos/system_database.py lines
596-623): select output/error for the key; `none` when no row matches, else the
first row. -/
def check_operation_execution (tbl : List OperationOutputsRow) (wf : String)
    (fn : Nat) : Option RecordedResult :=
  match tbl.filter (fun r => decide (r.workflow_uuid = wf ∧ r.function_id = fn)) with
  | [] => none
  | r :: _ => some { output := r.output, error := r.error }

/-- `SystemDatabase.send` (src/dbos/system_database.py lines 625-660).  One
transaction: OAOO check, insert into `notifications` (FK violation 23503 on the
destination maps to `DBOSNonExistentWorkflowError`; the FK itself is modelled
from the spec §3 since the schemas module is not under src/), then journal the
operation with null output/error.  `now` is the server-set
`created_at_epoch_ms`. -/
def send (db : SysDB) (workflow_uuid : String) (function_id : Nat)
    (destination_uuid : String) (message : Value) (topic : Option String)
    (now : Nat) : Except DBErr SysDB :=
  let t := topic.getD dbos_null_topic
  match check_operation_execution db.operation_outputs workflow_uuid function_id with
  | some _ => .ok db
  | none =>
    if db.workflow_status.any (fun r => decide (r.workflow_uuid = destination_uuid)) then
      let db1 : SysDB := { db with
        notifications := db.notifications ++
          [{ destination_uuid := destination_uuid, topic := t,
             message := serialize message, created_at_epoch_ms := now }] }
      match record_operation_result db1.operation_outputs
          { workflow_uuid := workflow_uuid, function_id := function_id,
            output := none, error := none } with
      | .ok tbl => .ok { db1 with operation_outputs := tbl }
      | .error e => .error e
    else
      .error (.DBOSNonExistentWorkflowError destination_uuid)

/-- Predicate of the `recv` queries: notification rows for this destination and
topic. -/
def notifMatch (wf topic : String) (r : NotificationsRow) : Bool :=
  decide (r.destination_uuid = wf ∧ r.topic = topic)

/-- The `oldest_entry` CTE of `recv`: ORDER BY `created_at_epoch_ms` ASC LIMIT 1
over the matching rows (ties broken by list position, as the unordered tie-break
of the database is arbitrary). -/
def oldestNotification : List NotificationsRow → Option NotificationsRow
  | [] => none
  | r :: rest =>
    match oldestNotification rest with
    | none => some r
    | some b => if r.created_at_epoch_ms ≤ b.created_at_epoch_ms then some r else some b

/-- The join condition of the DELETE in `recv`: equality with the CTE row on
(destination_uuid, topic, created_at_epoch_ms). -/
def tripleMatch (o r : NotificationsRow) : Bool :=
  decide (r.destination_uuid = o.destination_uuid ∧ r.topic = o.topic ∧
    r.created_at_epoch_ms = o.created_at_epoch_ms)

/-- The consuming transaction of `SystemDatabase.recv`
(src/dbos/system_database.py lines 713-756): DELETE joined against the
`oldest_entry` CTE with RETURNING message, deserialize the first returned row
(null when none), and journal the serialized result under
`(workflow_uuid, function_id)` in the same transaction.  The condition-variable
wait preceding this step is process-local and not part of this claim. -/
def recv_consume (db : SysDB) (workflow_uuid : String) (function_id : Nat)
    (topic : String) : Except DBErr (SysDB × Value) :=
  let oldest := oldestNotification (db.notifications.filter (notifMatch workflow_uuid topic))
  let rows : List NotificationsRow :=
    match oldest with
    | none => []
    | some o => db.notifications.filter (tripleMatch o)
  let remaining : List NotificationsRow :=
    match oldest with
    | none => db.notifications
    | some o => db.notifications.filter (fun r => !(tripleMatch o r))
  let message : Value :=
    match rows with
    | [] => .null
    | r :: _ => deserialize r.message
  match record_operation_result db.operation_outputs
      { workflow_uuid := workflow_uuid, function_id := function_id,
        output := some (serialize message), error := none } with
  | .ok tbl => .ok ({ db with notifications := remaining, operation_outputs := tbl }, message)
  | .error e => .error e

/-- Decoder applied to the journaled end-time blob of `sleep`. -/
def deserializeRat : Value → Option ℚ
  | .vrat q => some q
  | _ => none

/-- `SystemDatabase.sleep` (src/dbos/system_database.py lines 815-845).  The
OAOO check and the journaling insert run in separate transactions, so the table
is snapshot twice: `tblCheck` at the check and `tblRecord` at the record; a
concurrent journaler may have inserted in between, in which case the raised
`DBOSWorkflowConflictIDError` is swallowed.  `nowRecord` is the clock reading
used for `end_time = now + seconds`, `nowDur` the (later) reading used for
`duration = max(0, end_time - now)`.  The returned triple is (table after the
call, duration, time actually blocked: 0 when `skip_sleep`). -/
def sleep (tblCheck tblRecord : List OperationOutputsRow) (workflow_uuid : String)
    (function_id : Nat) (seconds : ℚ) (skip_sleep : Bool) (nowRecord nowDur : ℚ) :
    Except DBErr (List OperationOutputsRow × ℚ × ℚ) :=
  match check_operation_execution tblCheck workflow_uuid function_id with
  | some recorded =>
    match recorded.output with
    | none => .error (.AssertionFailure "no recorded end time")
    | some blob =>
      match deserializeRat (deserialize blob) with
      | none => .error .TypeFailure
      | some end_time =>
        let duration := max 0 (end_time - nowDur)
        .ok (tblRecord, duration, if skip_sleep then 0 else duration)
  | none =>
    let end_time := nowRecord + seconds
    let duration := max 0 (end_time - nowDur)
    match record_operation_result tblRecord
        { workflow_uuid := workflow_uuid, function_id := function_id,
          output := some (serialize (.vrat end_time)), error := none } with
    | .ok tbl => .ok (tbl, duration, if skip_sleep then 0 else duration)
    | .error (.DBOSWorkflowConflictIDError _) =>
      .ok (tblRecord, duration, if skip_sleep then 0 else duration)
    | .error e => .error e

/-- Status of a workflow in the `workflow_status` table: the first row with this
uuid (unique under the table primary key). -/
def statusOf (ws : List WorkflowStatusRow) (id : String) : Option WorkflowStatusString :=
  (ws.find? (fun r => decide (r.workflow_uuid = id))).map (·.status)

/-- Row transformation of the compare-and-swap UPDATE of
`start_queued_workflows`: SET status=PENDING WHERE uuid=id AND status=ENQUEUED. -/
def casRow (id : String) (r : WorkflowStatusRow) : WorkflowStatusRow :=
  if r.workflow_uuid = id ∧ r.status = .ENQUEUED then { r with status := .PENDING } else r

/-- The `workflow_status` table after the compare-and-swap UPDATE for one id. -/
def casTable (ws : List WorkflowStatusRow) (id : String) : List WorkflowStatusRow :=
  ws.map (casRow id)

/-- The row count reported by the compare-and-swap UPDATE for one id. -/
def casRowcount (ws : List WorkflowStatusRow) (id : String) : Nat :=
  (ws.filter (fun r => decide (r.workflow_uuid = id ∧ r.status = .ENQUEUED))).length

/-- The per-id loop of `start_queued_workflows`: run the CAS UPDATE for each
dequeued id in order; an id joins the returned list exactly when its UPDATE
reported a positive row count. -/
def admitLoop (ws : List WorkflowStatusRow) :
    List String → List WorkflowStatusRow × List String
  | [] => (ws, [])
  | id :: rest =>
    let n := casRowcount ws id
    let step := admitLoop (casTable ws id) rest
    (step.1, if 0 < n then id :: step.2 else step.2)

/-- Insertion step of the ORDER BY `created_at_epoch_ms` ASC sort. -/
def insertByCreated (r : JobQueueRow) : List JobQueueRow → List JobQueueRow
  | [] => [r]
  | b :: rest =>
    if r.created_at_epoch_ms ≤ b.created_at_epoch_ms then r :: b :: rest
    else b :: insertByCreated r rest

/-- A stable sort by `created_at_epoch_ms` ascending, modelling the ORDER BY of
`start_queued_workflows` (ties are returned in an arbitrary order by the
database; this model keeps them in table order). -/
def sortByCreated : List JobQueueRow → List JobQueueRow
  | [] => []
  | r :: rest => insertByCreated r (sortByCreated rest)

/-- The ids selected from `job_queue` by `start_queued_workflows`: rows of the
queue, ordered by `created_at_epoch_ms` ascending and limited to `concurrency`
when a concurrency is given, unordered and unlimited otherwise
(src/dbos/system_database.py lines 1062-1070). -/
def dequeuedIds (db : SysDB) (queue_name : String) (concurrency : Option Nat) :
    List String :=
  let matching := db.job_queue.filter (fun r => decide (r.queue_name = queue_name))
  let rows :=
    match concurrency with
    | some c => (sortByCreated matching).take c
    | none => matching
  rows.map (·.workflow_uuid)

/-- `SystemDatabase.start_queued_workflows` (src/dbos/system_database.py lines
1058-1084): select dequeued ids, then admit each via the CAS UPDATE. -/
def start_queued_workflows (db : SysDB) (queue_name : String)
    (concurrency : Option Nat) : SysDB × List String :=
  let step := admitLoop db.workflow_status (dequeuedIds db queue_name concurrency)
  ({ db with workflow_status := step.1 }, step.2)

/-- `QueueRateLimit` (src/dbos/queue.py lines 12-21): documented to bound starts
to at most `limit` per `period` seconds. -/
structure QueueRateLimit where
  limit : Nat
  period : ℚ
  deriving DecidableEq, Repr

/-- `Queue` (src/dbos/queue.py lines 24-44): name, optional concurrency bound and
optional rate limiter, as registered with the dispatcher. -/
structure Queue where
  name : String
  concurrency : Option Nat
  limiter : Option QueueRateLimit
  deriving DecidableEq, Repr

/-- One dispatcher admission pass for one registered queue, the per-queue body of
`queue_thread` (src/dbos/queue.py lines 55-67).  The thread calls
`start_queued_workflows_sync(queue)`, which is not under src/; Modelled from the
spec: §4.8, the dispatcher admission is `start_queued_workflows(queue.name,
queue.concurrency)`.  The `limiter` field of the queue is not consulted anywhere
in src/. -/
def dispatch_queue (db : SysDB) (queue : Queue) : SysDB × List String :=
  start_queued_workflows db queue.name queue.concurrency

/-- `SystemDatabase.set_workflow_status` (src/dbos/system_database.py lines
285-309).  Both UPDATE statements target `workflow_status` but filter on
`SystemSchema.workflow_inputs.c.workflow_uuid`; SQLAlchemy renders this as
UPDATE ... FROM workflow_inputs with no join condition, so every
`workflow_status` row is updated exactly when some `workflow_inputs` row carries
the given uuid, and nothing is updated otherwise.  The truthy
`reset_recovery_attempts` branch writes the boolean itself into the integer
`recovery_attempts` column, i.e. 1. -/
def set_workflow_status (db : SysDB) (workflow_uuid : String)
    (status : WorkflowStatusString) (reset_recovery_attempts : Bool) : SysDB :=
  let hit := db.workflow_inputs.any (fun r => decide (r.workflow_uuid = workflow_uuid))
  let ws := if hit then db.workflow_status.map (fun r => { r with status := status })
            else db.workflow_status
  let ws2 := if reset_recovery_attempts && hit then
               ws.map (fun r => { r with recovery_attempts := 1 })
             else ws
  { db with workflow_status := ws2 }

/-- Truthiness of `os.environ.get("DBOS__VMID")`: set and non-empty. -/
def envTruthy : Option String → Bool
  | none => false
  | some s => !(s == "")

/-- Environment of `recover_pending_workflows`: the `DBOS__VMID` marker and the
per-executor pending lists returned by `get_pending_workflows`. -/
structure RecoveryEnv where
  vmid : Option String
  pending : String → List String

/-- Observable outcome of a recovery run: the handles returned (one per
re-executed workflow, identified by its uuid — the executor callback
`execute_workflow_by_id(uuid) → Handle` is external per spec §6) and the log
lines emitted. -/
structure RecoveryOutput where
  workflow_handles : List String
  logs : List String
  deriving DecidableEq, Repr

/-- `recover_pending_workflows` (src/dbos/_recovery.py lines 35-54).  When
`executor_id == "local"` and `DBOS__VMID` is truthy the source only emits a
debug log — the loop body then proceeds to list and re-execute the pending
workflows of that executor unconditionally. -/
def recover_pending_workflows (env : RecoveryEnv) (executor_ids : List String) :
    RecoveryOutput :=
  executor_ids.foldl
    (fun acc executor_id =>
      let acc2 :=
        if executor_id = "local" ∧ envTruthy env.vmid = true then
          { acc with logs := acc.logs ++ ["Skip local recovery because it is running in a VM"] }
        else acc
      { acc2 with workflow_handles := acc2.workflow_handles ++ env.pending executor_id })
    { workflow_handles := [], logs := [] }

/-- `buffer_flush_batch_size` (src/dbos/system_database.py line 139). -/
def buffer_flush_batch_size : Nat := 100

/-- Lookup in an insertion-ordered dictionary modelled as an association list. -/
def lookupBuf {β : Type} : List (String × β) → String → Option β
  | [], _ => none
  | p :: rest, k => if p.1 = k then some p.2 else lookupBuf rest k

/-- `dict.pop(k)` effect on the association list: remove the key. -/
def eraseKeyBuf {β : Type} (l : List (String × β)) (k : String) : List (String × β) :=
  l.filter (fun p => !(decide (p.1 = k)))

/-- `dict[k] = v`: replace in place when the key exists, append otherwise. -/
def dictInsert {β : Type} (l : List (String × β)) (k : String) (v : β) :
    List (String × β) :=
  if l.any (fun p => decide (p.1 = k)) then
    l.map (fun p => if p.1 = k then (k, v) else p)
  else l ++ [(k, v)]

/-- `set.add`: append when absent. -/
def insertSet (l : List String) (u : String) : List String :=
  if u ∈ l then l else l ++ [u]

/-- `set.discard`: remove every occurrence. -/
def eraseSet (l : List String) (u : String) : List String :=
  l.filter (fun x => !(decide (x = u)))

/-- In-memory state of the buffered writer (src/dbos/system_database.py lines
197-203) together with the durable tables it writes. -/
structure BufState where
  db : SysDB
  workflow_status_buffer : List (String × WorkflowStatusRow)
  workflow_inputs_buffer : List (String × Value)
  temp_txn_wf_ids : List String
  exported_temp_txn_wf_status : List String
  deriving DecidableEq, Repr

/-- The INSERT ... ON CONFLICT command of `update_workflow_status` on the
`workflow_status` table: on conflict either update status/output/error
(`replace`), increment `recovery_attempts` (`in_recovery`), or do nothing. -/
def upsertWorkflowStatusTable (tbl : List WorkflowStatusRow)
    (status : WorkflowStatusRow) (replace in_recovery : Bool) :
    List WorkflowStatusRow :=
  if tbl.any (fun r => decide (r.workflow_uuid = status.workflow_uuid)) then
    if replace then
      tbl.map (fun r =>
        if r.workflow_uuid = status.workflow_uuid then
          { r with status := status.status, output := status.output,
                   error := status.error }
        else r)
    else if in_recovery then
      tbl.map (fun r =>
        if r.workflow_uuid = status.workflow_uuid then
          { r with recovery_attempts := r.recovery_attempts + 1 }
        else r)
    else tbl
  else tbl ++ [status]

/-- `SystemDatabase.update_workflow_status` (src/dbos/system_database.py lines
231-283): run the upsert command; afterwards, a uuid flagged as a
single-transaction temp workflow is recorded in `exported_temp_txn_wf_status`. -/
def update_workflow_status (st : BufState) (status : WorkflowStatusRow)
    (replace : Bool) (in_recovery : Bool) : BufState :=
  { st with
      db := { st.db with workflow_status :=
        upsertWorkflowStatusTable st.db.workflow_status status replace in_recovery },
      exported_temp_txn_wf_status :=
        if status.workflow_uuid ∈ st.temp_txn_wf_ids then
          insertSet st.exported_temp_txn_wf_status status.workflow_uuid
        else st.exported_temp_txn_wf_status }

/-- The INSERT ... ON CONFLICT DO NOTHING command of `update_workflow_inputs` on
the `workflow_inputs` table. -/
def insertWorkflowInputsTable (tbl : List WorkflowInputsRow)
    (workflow_uuid : String) (inputs : Value) : List WorkflowInputsRow :=
  if tbl.any (fun r => decide (r.workflow_uuid = workflow_uuid)) then tbl
  else tbl ++ [{ workflow_uuid := workflow_uuid, inputs := inputs }]

/-- `SystemDatabase.update_workflow_inputs` (src/dbos/system_database.py lines
486-506): run the insert; a temp workflow uuid is then discarded from both
tracking sets. -/
def update_workflow_inputs (st : BufState) (workflow_uuid : String)
    (inputs : Value) : BufState :=
  { st with
      db := { st.db with workflow_inputs :=
        insertWorkflowInputsTable st.db.workflow_inputs workflow_uuid inputs },
      exported_temp_txn_wf_status :=
        if workflow_uuid ∈ st.temp_txn_wf_ids then
          eraseSet st.exported_temp_txn_wf_status workflow_uuid
        else st.exported_temp_txn_wf_status,
      temp_txn_wf_ids :=
        if workflow_uuid ∈ st.temp_txn_wf_ids then
          eraseSet st.temp_txn_wf_ids workflow_uuid
        else st.temp_txn_wf_ids }

/-- `SystemDatabase.buffer_workflow_status` (src/dbos/system_database.py lines
1032-1033). -/
def buffer_workflow_status (st : BufState) (status : WorkflowStatusRow) : BufState :=
  { st with workflow_status_buffer :=
      dictInsert st.workflow_status_buffer status.workflow_uuid status }

/-- `SystemDatabase.buffer_workflow_inputs` (src/dbos/system_database.py lines
1035-1038): buffer the serialized inputs and flag the workflow as a
single-transaction temp workflow. -/
def buffer_workflow_inputs (st : BufState) (workflow_id : String) (inputs : Value) :
    BufState :=
  { st with
      workflow_inputs_buffer := dictInsert st.workflow_inputs_buffer workflow_id inputs,
      temp_txn_wf_ids := insertSet st.temp_txn_wf_ids workflow_id }

/-- Loop body of `SystemDatabase._flush_workflow_status_buffer`
(src/dbos/system_database.py lines 953-981): iterate over a snapshot of the
buffered keys, pop each entry and upsert it, counting successful exports against
the batch budget. -/
def flushStatusLoop : BufState → List String → Nat → BufState
  | st, _, 0 => st
  | st, [], _ => st
  | st, id :: rest, Nat.succ b =>
    match lookupBuf st.workflow_status_buffer id with
    | none => flushStatusLoop st rest (Nat.succ b)
    | some s =>
      let st1 : BufState :=
        { st with workflow_status_buffer := eraseKeyBuf st.workflow_status_buffer id }
      flushStatusLoop (update_workflow_status st1 s true false) rest b

/-- Loop body of `SystemDatabase._flush_workflow_inputs_buffer`
(src/dbos/system_database.py lines 983-1013): a key whose status has not been
exported yet is skipped (left in the buffer, not counted against the batch
budget); otherwise the entry is popped and inserted. -/
def flushInputsLoop : BufState → List String → Nat → BufState
  | st, _, 0 => st
  | st, [], _ => st
  | st, id :: rest, Nat.succ b =>
    if id ∈ st.exported_temp_txn_wf_status then
      match lookupBuf st.workflow_inputs_buffer id with
      | none => flushInputsLoop st rest (Nat.succ b)
      | some inputs =>
        let st1 : BufState :=
          { st with workflow_inputs_buffer := eraseKeyBuf st.workflow_inputs_buffer id }
        flushInputsLoop (update_workflow_inputs st1 id inputs) rest b
    else
      flushInputsLoop st rest (Nat.succ b)

/-- `SystemDatabase._flush_workflow_status_buffer` over a snapshot of the buffer
keys with the batch budget. -/
def flush_workflow_status_buffer (st : BufState) : BufState :=
  flushStatusLoop st (st.workflow_status_buffer.map Prod.fst) buffer_flush_batch_size

/-- `SystemDatabase._flush_workflow_inputs_buffer` over a snapshot of the buffer
keys with the batch budget. -/
def flush_workflow_inputs_buffer (st : BufState) : BufState :=
  flushInputsLoop st (st.workflow_inputs_buffer.map Prod.fst) buffer_flush_batch_size

/-- One pass of `SystemDatabase.flush_workflow_buffers`
(src/dbos/system_database.py lines 1015-1030): the status buffer is flushed
first, then the inputs buffer. -/
def flush_pass (st : BufState) : BufState :=
  flush_workflow_inputs_buffer (flush_workflow_status_buffer st)

/-- `TransactionResultInternal` (src/dbos/application_database.py lines 17-24). -/
structure TransactionResultInternal where
  workflow_uuid : String
  function_id : Nat
  output : Option Value
  error : Option Value
  txn_id : Option String
  txn_snapshot : String
  executor_id : Option String
  deriving DecidableEq, Repr

/-- Row of the `transaction_outputs` table in the application database (spec §3;
the schemas module `dbos/schemas/application_database.py` is not under src/). -/
structure TransactionOutputsRow where
  workflow_uuid : String
  function_id : Nat
  output : Option Value
  error : Option Value
  txn_id : Option String
  txn_snapshot : String
  executor_id : Option String
  deriving DecidableEq, Repr

/-- Python truthiness applied to `executor_id`: the empty string is stored as
NULL (src/dbos/application_database.py lines 104-106). -/
def normalizeExecutorId : Option String → Option String
  | none => none
  | some s => if s = "" then none else some s

/-- Does `transaction_outputs` already hold a row for this composite key? -/
def hasTxnRow (tbl : List TransactionOutputsRow) (wf : String) (fn : Nat) : Bool :=
  tbl.any fun r => decide (r.workflow_uuid = wf ∧ r.function_id = fn)

/-- `ApplicationDatabase.record_transaction_output`
(src/dbos/application_database.py lines 91-112): insert with the error column
hard-coded to NULL; 23505 maps to `DBOSWorkflowConflictIDError`.
`current_txn_id` stands for `pg_current_xact_id_if_assigned()::text`. -/
def record_transaction_output (tbl : List TransactionOutputsRow)
    (output : TransactionResultInternal) (current_txn_id : Option String) :
    Except DBErr (List TransactionOutputsRow) :=
  if hasTxnRow tbl output.workflow_uuid output.function_id then
    .error (.DBOSWorkflowConflictIDError output.workflow_uuid)
  else
    .ok (tbl ++ [{ workflow_uuid := output.workflow_uuid,
                   function_id := output.function_id,
                   output := output.output, error := none,
                   txn_id := current_txn_id, txn_snapshot := output.txn_snapshot,
                   executor_id := normalizeExecutorId output.executor_id }])

/-- `ApplicationDatabase.record_transaction_error_async`
(src/dbos/application_database.py lines 140-163): insert in its own transaction
with the output column hard-coded to NULL; 23505 maps to
`DBOSWorkflowConflictIDError`. -/
def record_transaction_error (tbl : List TransactionOutputsRow)
    (output : TransactionResultInternal) (current_txn_id : Option String) :
    Except DBErr (List TransactionOutputsRow) :=
  if hasTxnRow tbl output.workflow_uuid output.function_id then
    .error (.DBOSWorkflowConflictIDError output.workflow_uuid)
  else
    .ok (tbl ++ [{ workflow_uuid := output.workflow_uuid,
                   function_id := output.function_id,
                   output := none, error := output.error,
                   txn_id := current_txn_id, txn_snapshot := output.txn_snapshot,
                   executor_id := normalizeExecutorId output.executor_id }])

/-- An empty system database. -/
def emptySysDB : SysDB :=
  { workflow_status := [], workflow_inputs := [], operation_outputs := [],
    notifications := [], job_queue := [] }

/-- An operation result with both output and error null, as produced by the
`send` and `set_event` protocols. -/
def exampleBothNull : OperationResultInternal :=
  { workflow_uuid := "w", function_id := 0, output := none, error := none }

/-- Queue scenario: w1 is ENQUEUED, w2 already SUCCESS, both rows sit in
`job_queue` for queue q. -/
def exampleQueueDB : SysDB :=
  { emptySysDB with
      workflow_status :=
        [{ workflow_uuid := "w1", status := .ENQUEUED, name := "f" },
         { workflow_uuid := "w2", status := .SUCCESS, name := "f" }],
      job_queue :=
        [{ workflow_uuid := "w1", queue_name := "q", created_at_epoch_ms := 1 },
         { workflow_uuid := "w2", queue_name := "q", created_at_epoch_ms := 2 }] }

/-- Send scenario: the destination workflow d exists, nothing is journaled. -/
def exampleSendDB : SysDB :=
  { emptySysDB with
      workflow_status := [{ workflow_uuid := "d", status := .PENDING, name := "f" }] }

/-- Two notifications for the same destination and topic with the same
`created_at_epoch_ms`. -/
def exampleTiedDB : SysDB :=
  { emptySysDB with
      notifications :=
        [{ destination_uuid := "w", topic := "t", message := .vstr "m1",
           created_at_epoch_ms := 5 },
         { destination_uuid := "w", topic := "t", message := .vstr "m2",
           created_at_epoch_ms := 5 }] }

/-- Two notifications for the same destination and topic with distinct
`created_at_epoch_ms`, plus a row for a different destination that shares a
timestamp with one of them. -/
def exampleFifoDB : SysDB :=
  { emptySysDB with
      notifications :=
        [{ destination_uuid := "w", topic := "t", message := .vstr "m2",
           created_at_epoch_ms := 7 },
         { destination_uuid := "w", topic := "t", message := .vstr "m1",
           created_at_epoch_ms := 5 },
         { destination_uuid := "other", topic := "t", message := .vstr "m3",
           created_at_epoch_ms := 5 }] }

/-- Recovery scenario: `DBOS__VMID` is set and the local executor has one
pending workflow. -/
def exampleRecoveryEnv : RecoveryEnv :=
  { vmid := some "vm1",
    pending := fun executor_id => if executor_id = "local" then ["w1"] else [] }

/-- A database holding a `workflow_status` row for w1 but no `workflow_inputs`
row at all. -/
def exampleStatusOnlyDB : SysDB :=
  { emptySysDB with
      workflow_status := [{ workflow_uuid := "w1", status := .ENQUEUED, name := "f" }] }

/-- A database holding `workflow_status` rows for w1 and w2 and a
`workflow_inputs` row for w1 only. -/
def exampleCrossDB : SysDB :=
  { emptySysDB with
      workflow_status :=
        [{ workflow_uuid := "w1", status := .ENQUEUED, name := "f" },
         { workflow_uuid := "w2", status := .ENQUEUED, name := "g" }],
      workflow_inputs := [{ workflow_uuid := "w1", inputs := .null }] }

/-- A queue configured with a rate limiter of at most 1 start per 10 seconds and
no concurrency bound. -/
def exampleRateQueue : Queue :=
  { name := "q", concurrency := none, limiter := some { limit := 1, period := 10 } }

/-- Two enqueued workflows waiting on queue q. -/
def exampleRateDB : SysDB :=
  { emptySysDB with
      workflow_status :=
        [{ workflow_uuid := "w1", status := .ENQUEUED, name := "f" },
         { workflow_uuid := "w2", status := .ENQUEUED, name := "f" }],
      job_queue :=
        [{ workflow_uuid := "w1", queue_name := "q", created_at_epoch_ms := 1 },
         { workflow_uuid := "w2", queue_name := "q", created_at_epoch_ms := 2 }] }

/-- Buffered-writer scenario: a temp-txn workflow w has both its status and its
inputs buffered and nothing written yet. -/
def exampleBufSt : BufState :=
  { db := emptySysDB,
    workflow_status_buffer :=
      [("w", { workflow_uuid := "w", status := .SUCCESS, name := "f" })],
    workflow_inputs_buffer := [("w", .vstr "inputs")],
    temp_txn_wf_ids := ["w"],
    exported_temp_txn_wf_status := [] }

/-- An operation result with both output and error set. -/
def exampleBothSet : OperationResultInternal :=
  { workflow_uuid := "w", function_id := 1, output := some (.vstr "a"),
    error := some (.vstr "b") }

/-- The oldest matching notification of `exampleFifoDB`. -/
def exampleOldestRow : NotificationsRow :=
  { destination_uuid := "w", topic := "t", message := .vstr "m1",
    created_at_epoch_ms := 5 }

/-- A transaction result carrying BOTH an output and an error field, plus an
empty-string executor id. -/
def exampleTxnResult : TransactionResultInternal :=
  { workflow_uuid := "w", function_id := 1, output := some (.vstr "o"),
    error := some (.vstr "e"), txn_id := none, txn_snapshot := "snap",
    executor_id := some "" }

/-- The row `record_transaction_output` writes for `exampleTxnResult`. -/
def exampleTxnRowOut : TransactionOutputsRow :=
  { workflow_uuid := "w", function_id := 1, output := some (.vstr "o"), error := none,
    txn_id := none, txn_snapshot := "snap", executor_id := none }

/-! Shared helper lemmas. -/

theorem hasOpRow_false_iff_filter_nil (tbl : List OperationOutputsRow) (wf : String)
    (fn : Nat) :
    hasOpRow tbl wf fn = false ↔
      tbl.filter (fun r => decide (r.workflow_uuid = wf ∧ r.function_id = fn)) = [] := by
  rw [hasOpRow, List.any_eq_false, List.filter_eq_nil_iff]

theorem check_none_iff (tbl : List OperationOutputsRow) (wf : String) (fn : Nat) :
    check_operation_execution tbl wf fn = none ↔ hasOpRow tbl wf fn = false := by
  rw [hasOpRow_false_iff_filter_nil]
  unfold check_operation_execution
  cases hf : tbl.filter (fun r => decide (r.workflow_uuid = wf ∧ r.function_id = fn)) with
  | nil => simp
  | cons r rest => simp

theorem record_ok (tbl : List OperationOutputsRow) (wf : String) (fn : Nat)
    (out : Option Value) (h : hasOpRow tbl wf fn = false) :
    record_operation_result tbl
      { workflow_uuid := wf, function_id := fn, output := out, error := none } =
      .ok (tbl ++ [{ workflow_uuid := wf, function_id := fn, output := out, error := none }]) := by
  unfold record_operation_result
  dsimp only
  rw [if_pos (Or.inl rfl), if_neg (by simp [h])]

theorem record_conflict (tbl : List OperationOutputsRow) (wf : String) (fn : Nat)
    (out : Option Value) (h : hasOpRow tbl wf fn = true) :
    record_operation_result tbl
      { workflow_uuid := wf, function_id := fn, output := out, error := none } =
      .error (.DBOSWorkflowConflictIDError wf) := by
  unfold record_operation_result
  dsimp only
  rw [if_pos (Or.inl rfl), if_pos h]

/-- C1 (counterexample): an operation result with both output and error null
passes the assertion of `record_operation_result` and inserts a row, refuting
the claim that exactly one of output/error must be non-null and that a both-null
result must fail the assertion rather than insert. -/
theorem record_operation_result_both_null_inserts :
    exampleBothNull.output = none ∧ exampleBothNull.error = none ∧
    record_operation_result [] exampleBothNull =
      .ok [{ workflow_uuid := "w", function_id := 0, output := none, error := none }] :=
  ⟨rfl, rfl, rfl⟩

/-- C1 (amended): `record_operation_result` rejects by assertion exactly the
results with both output and error non-null (at most one non-null is enforced,
not exactly one); a permitted result whose `(workflow_uuid, function_id)` key
already has a row raises `DBOSWorkflowConflictIDError` (unique violation), and
otherwise the row — including a both-null row, as produced by the send
protocol — is inserted. -/
theorem record_operation_result_at_most_one (tbl : List OperationOutputsRow)
    (result : OperationResultInternal) :
    (¬(result.error = none ∨ result.output = none) →
      record_operation_result tbl result =
        .error (.AssertionFailure "Only one of error or output can be set")) ∧
    ((result.error = none ∨ result.output = none) →
      hasOpRow tbl result.workflow_uuid result.function_id = true →
      record_operation_result tbl result =
        .error (.DBOSWorkflowConflictIDError result.workflow_uuid)) ∧
    ((result.error = none ∨ result.output = none) →
      hasOpRow tbl result.workflow_uuid result.function_id = false →
      record_operation_result tbl result =
        .ok (tbl ++ [{ workflow_uuid := result.workflow_uuid,
                       function_id := result.function_id,
                       output := result.output, error := result.error }])) := by
  refine ⟨fun h => ?_, fun h hc => ?_, fun h hc => ?_⟩
  · unfold record_operation_result
    rw [if_neg h]
  · unfold record_operation_result
    rw [if_pos h, if_pos hc]
  · unfold record_operation_result
    rw [if_pos h, if_neg (by simp [hc])]

/-- Witness for C1 amended claim at a concrete both-non-null result. -/
theorem record_operation_result_at_most_one_witness :
    ¬(exampleBothSet.error = none ∨ exampleBothSet.output = none) ∧
    record_operation_result [] exampleBothSet =
      .error (.AssertionFailure "Only one of error or output can be set") :=
  ⟨by decide, (record_operation_result_at_most_one [] exampleBothSet).1 (by decide)⟩

/-- C10: `record_transaction_output` writes the error column as NULL regardless
of the argument, `record_transaction_error` writes the output column as NULL
regardless of the argument, so every appended `transaction_outputs` row has at
most one of output/error non-null. -/
theorem transaction_outputs_exclusive_columns (tbl : List TransactionOutputsRow)
    (output : TransactionResultInternal) (current_txn_id : Option String)
    (tbl2 : List TransactionOutputsRow) :
    (record_transaction_output tbl output current_txn_id = .ok tbl2 →
      ∃ r, tbl2 = tbl ++ [r] ∧ r.error = none ∧ r.output = output.output ∧
        (r.output = none ∨ r.error = none)) ∧
    (record_transaction_error tbl output current_txn_id = .ok tbl2 →
      ∃ r, tbl2 = tbl ++ [r] ∧ r.output = none ∧ r.error = output.error ∧
        (r.output = none ∨ r.error = none)) := by
  constructor
  · intro h
    unfold record_transaction_output at h
    split at h
    · cases h
    · cases h
      exact ⟨_, rfl, rfl, rfl, Or.inr rfl⟩
  · intro h
    unfold record_transaction_error at h
    split at h
    · cases h
    · cases h
      exact ⟨_, rfl, rfl, rfl, Or.inl rfl⟩

/-- Witness for C10 at a transaction result that carries both fields: the output
recorder still stores a NULL error column. -/
theorem transaction_outputs_exclusive_columns_witness :
    record_transaction_output [] exampleTxnResult none = .ok [exampleTxnRowOut] ∧
    (∃ r, [exampleTxnRowOut] = [] ++ [r] ∧ r.error = none ∧
      r.output = exampleTxnResult.output ∧ (r.output = none ∨ r.error = none)) :=
  ⟨by rfl,
    (transaction_outputs_exclusive_columns [] exampleTxnResult none
      [exampleTxnRowOut]).1 (by rfl)⟩

/-- C6 (code-bug evidence): with `DBOS__VMID` set, `recover_pending_workflows`
emits the skip log for the local executor but still re-executes its pending
workflow and returns its handle — the branch has no effect beyond logging. -/
theorem recover_pending_workflows_vmid_not_skipped :
    (recover_pending_workflows exampleRecoveryEnv ["local"]).workflow_handles = ["w1"] ∧
    (recover_pending_workflows exampleRecoveryEnv ["local"]).logs =
      ["Skip local recovery because it is running in a VM"] :=
  ⟨rfl, rfl⟩

/-- C7 (code-bug evidence): `set_workflow_status` filters on
`workflow_inputs.workflow_uuid` while updating `workflow_status`.  With a status
row for w1 and no inputs row, the call changes nothing; with an inputs row for
w1 present, it updates every `workflow_status` row, not just w1. -/
theorem set_workflow_status_wrong_table_filter :
    set_workflow_status exampleStatusOnlyDB "w1" .CANCELLED false = exampleStatusOnlyDB ∧
    ((set_workflow_status exampleCrossDB "w1" .CANCELLED false).workflow_status.map
      (·.status)) = [.CANCELLED, .CANCELLED] :=
  ⟨rfl, rfl⟩

/-- C8 (code-bug evidence): one dispatcher pass over a queue configured with a
rate limiter of 1 start per 10 seconds admits both enqueued workflows at once;
the `limiter` field is never consulted by the admission path. -/
theorem dispatch_queue_ignores_rate_limiter :
    exampleRateQueue.limiter = some { limit := 1, period := 10 } ∧
    (dispatch_queue exampleRateDB exampleRateQueue).2 = ["w1", "w2"] ∧
    (dispatch_queue exampleRateDB exampleRateQueue).2.length = 2 :=
  ⟨rfl, rfl, rfl⟩

/-- C4: `send` is idempotent and maps errors by kind in one transaction: a
journaled `(workflow_uuid, function_id)` returns with no change; otherwise a
missing destination raises `DBOSNonExistentWorkflowError` (foreign-key
violation, and the `Except.error` leaves the state untouched — the transaction
rolls back); otherwise the notification is inserted with the topic defaulted to
`__null__topic__` and the serialized message, and the operation is journaled
with null output/error. -/
theorem send_idempotent_oaoo (db : SysDB) (workflow_uuid : String) (function_id : Nat)
    (destination_uuid : String) (message : Value) (topic : Option String) (now : Nat) :
    (∀ res, check_operation_execution db.operation_outputs workflow_uuid function_id =
        some res →
      send db workflow_uuid function_id destination_uuid message topic now = .ok db) ∧
    (check_operation_execution db.operation_outputs workflow_uuid function_id = none →
      (¬∃ r ∈ db.workflow_status, r.workflow_uuid = destination_uuid) →
      send db workflow_uuid function_id destination_uuid message topic now =
        .error (.DBOSNonExistentWorkflowError destination_uuid)) ∧
    (check_operation_execution db.operation_outputs workflow_uuid function_id = none →
      (∃ r ∈ db.workflow_status, r.workflow_uuid = destination_uuid) →
      send db workflow_uuid function_id destination_uuid message topic now =
        .ok { db with
          notifications := db.notifications ++
            [{ destination_uuid := destination_uuid,
               topic := topic.getD dbos_null_topic,
               message := serialize message, created_at_epoch_ms := now }],
          operation_outputs := db.operation_outputs ++
            [{ workflow_uuid := workflow_uuid, function_id := function_id,
               output := none, error := none }] }) := by
  refine ⟨fun res h => ?_, fun h hno => ?_, fun h hyes => ?_⟩
  · unfold send
    rw [h]
  · have hb : db.workflow_status.any
        (fun r => decide (r.workflow_uuid = destination_uuid)) = false := by
      rw [List.any_eq_false]
      intro r hr hx
      exact hno ⟨r, hr, by simpa using hx⟩
    unfold send
    rw [h]
    simp only [hb]
    rfl
  · have hb : db.workflow_status.any
        (fun r => decide (r.workflow_uuid = destination_uuid)) = true := by
      rw [List.any_eq_true]
      rcases hyes with ⟨r, hr, he⟩
      exact ⟨r, hr, by simpa using he⟩
    have hop : hasOpRow db.operation_outputs workflow_uuid function_id = false :=
      (check_none_iff _ _ _).1 h
    simp only [send, h]
    rw [if_pos hb]
    rw [record_ok db.operation_outputs workflow_uuid function_id none hop]

/-- Witness for C4 at a concrete unjournaled send to an existing destination. -/
theorem send_idempotent_oaoo_witness :
    check_operation_execution exampleSendDB.operation_outputs "src" 3 = none ∧
    (∃ r ∈ exampleSendDB.workflow_status, r.workflow_uuid = "d") ∧
    send exampleSendDB "src" 3 "d" (.vint 42) none 9 =
      .ok { exampleSendDB with
        notifications := exampleSendDB.notifications ++
          [{ destination_uuid := "d", topic := (none : Option String).getD dbos_null_topic,
             message := serialize (.vint 42), created_at_epoch_ms := 9 }],
        operation_outputs := exampleSendDB.operation_outputs ++
          [{ workflow_uuid := "src", function_id := 3,
             output := none, error := none }] } :=
  ⟨rfl, by decide,
    (send_idempotent_oaoo exampleSendDB "src" 3 "d" (.vint 42) none 9).2.2 rfl (by decide)⟩

theorem filter_op_append_self (tbl : List OperationOutputsRow) (wf : String) (fn : Nat)
    (out err : Option Value) (h : hasOpRow tbl wf fn = false) :
    check_operation_execution
      (tbl ++ [{ workflow_uuid := wf, function_id := fn, output := out, error := err }])
      wf fn = some { output := out, error := err } := by
  unfold check_operation_execution
  rw [List.filter_append, (hasOpRow_false_iff_filter_nil tbl wf fn).1 h]
  simp

theorem sleep_of_recorded (tblCheck tblRecord : List OperationOutputsRow)
    (wf : String) (fn : Nat) (seconds : ℚ) (skip : Bool) (nr nd e : ℚ)
    (er : Option Value)
    (h : check_operation_execution tblCheck wf fn =
      some { output := some (.vrat e), error := er }) :
    sleep tblCheck tblRecord wf fn seconds skip nr nd =
      .ok (tblRecord, max 0 (e - nd), if skip then 0 else max 0 (e - nd)) := by
  simp only [sleep, h, deserialize, deserializeRat]

theorem sleep_of_fresh (tblCheck tblRecord : List OperationOutputsRow)
    (wf : String) (fn : Nat) (seconds : ℚ) (skip : Bool) (nr nd : ℚ)
    (h : check_operation_execution tblCheck wf fn = none)
    (h2 : hasOpRow tblRecord wf fn = false) :
    sleep tblCheck tblRecord wf fn seconds skip nr nd =
      .ok (tblRecord ++
            [{ workflow_uuid := wf, function_id := fn,
               output := some (.vrat (nr + seconds)), error := none }],
        max 0 (nr + seconds - nd), if skip then 0 else max 0 (nr + seconds - nd)) := by
  simp only [sleep, h, serialize]
  rw [record_ok tblRecord wf fn (some (.vrat (nr + seconds))) h2]

theorem sleep_of_conflict (tblCheck tblRecord : List OperationOutputsRow)
    (wf : String) (fn : Nat) (seconds : ℚ) (skip : Bool) (nr nd : ℚ)
    (h : check_operation_execution tblCheck wf fn = none)
    (h2 : hasOpRow tblRecord wf fn = true) :
    sleep tblCheck tblRecord wf fn seconds skip nr nd =
      .ok (tblRecord, max 0 (nr + seconds - nd),
        if skip then 0 else max 0 (nr + seconds - nd)) := by
  simp only [sleep, h, serialize]
  rw [record_conflict tblRecord wf fn (some (.vrat (nr + seconds))) h2]

/-- C3: durable sleep is idempotent.  An already-journaled `(workflow_uuid,
function_id)` yields the recorded end-time `e` and duration `max 0 (e - now)`
with no table change; otherwise `end = now + seconds` is journaled (and a
conflict against a concurrent journaler who won between the two transactions is
swallowed, leaving that journal in place); in every case the returned duration
is `max 0 (end - now)` and the time blocked is that duration unless
`skip_sleep`; finally, a re-invocation after a crash against the journaled
table waits only until the originally scheduled end-time. -/
theorem sleep_durable (tblCheck tblRecord : List OperationOutputsRow)
    (workflow_uuid : String) (function_id : Nat) (seconds : ℚ) (skip_sleep : Bool)
    (nowRecord nowDur : ℚ) :
    (∀ e er, check_operation_execution tblCheck workflow_uuid function_id =
        some { output := some (.vrat e), error := er } →
      sleep tblCheck tblRecord workflow_uuid function_id seconds skip_sleep
          nowRecord nowDur =
        .ok (tblRecord, max 0 (e - nowDur),
          if skip_sleep then 0 else max 0 (e - nowDur))) ∧
    (check_operation_execution tblCheck workflow_uuid function_id = none →
      hasOpRow tblRecord workflow_uuid function_id = false →
      sleep tblCheck tblRecord workflow_uuid function_id seconds skip_sleep
          nowRecord nowDur =
        .ok (tblRecord ++
              [{ workflow_uuid := workflow_uuid, function_id := function_id,
                 output := some (.vrat (nowRecord + seconds)), error := none }],
          max 0 (nowRecord + seconds - nowDur),
          if skip_sleep then 0 else max 0 (nowRecord + seconds - nowDur))) ∧
    (check_operation_execution tblCheck workflow_uuid function_id = none →
      hasOpRow tblRecord workflow_uuid function_id = true →
      sleep tblCheck tblRecord workflow_uuid function_id seconds skip_sleep
          nowRecord nowDur =
        .ok (tblRecord, max 0 (nowRecord + seconds - nowDur),
          if skip_sleep then 0 else max 0 (nowRecord + seconds - nowDur))) ∧
    (check_operation_execution tblCheck workflow_uuid function_id = none →
      hasOpRow tblRecord workflow_uuid function_id = false →
      ∀ tbl2 seconds2 skip2 t2 t3,
        sleep (tblRecord ++
              [{ workflow_uuid := workflow_uuid, function_id := function_id,
                 output := some (.vrat (nowRecord + seconds)), error := none }]) tbl2
          workflow_uuid function_id seconds2 skip2 t2 t3 =
          .ok (tbl2, max 0 (nowRecord + seconds - t3),
            if skip2 then 0 else max 0 (nowRecord + seconds - t3))) :=
  ⟨fun e er h => sleep_of_recorded _ _ _ _ _ _ _ _ _ _ h,
   fun h h2 => sleep_of_fresh _ _ _ _ _ _ _ _ h h2,
   fun h h2 => sleep_of_conflict _ _ _ _ _ _ _ _ h h2,
   fun _ h2 tbl2 seconds2 skip2 t2 t3 =>
     sleep_of_recorded _ _ _ _ _ _ _ _ _ _
       (filter_op_append_self tblRecord workflow_uuid function_id
         (some (.vrat (nowRecord + seconds))) none h2)⟩

/-- Witness for C3: a fresh sleep of 10 at time 0 journals end-time 10; the
re-invocation at time 4 sleeps only the remaining 6. -/
theorem sleep_durable_witness :
    check_operation_execution ([] : List OperationOutputsRow) "w" 1 = none ∧
    hasOpRow ([] : List OperationOutputsRow) "w" 1 = false ∧
    sleep (([] : List OperationOutputsRow) ++
        [{ workflow_uuid := "w", function_id := 1,
           output := some (.vrat ((0 : ℚ) + 10)), error := none }]) [] "w" 1 10
        false 2 4 =
      .ok ([], max 0 ((0 : ℚ) + 10 - 4),
        if false then 0 else max 0 ((0 : ℚ) + 10 - 4)) :=
  ⟨rfl, rfl,
    (sleep_durable [] [] "w" 1 10 true 0 0).2.2.2 rfl rfl [] 10 false 2 4⟩

theorem casRow_uuid (id : String) (r : WorkflowStatusRow) :
    (casRow id r).workflow_uuid = r.workflow_uuid := by
  unfold casRow
  split <;> rfl

theorem casTable_map_uuid (ws : List WorkflowStatusRow) (id : String) :
    (casTable ws id).map (·.workflow_uuid) = ws.map (·.workflow_uuid) := by
  unfold casTable
  rw [List.map_map]
  congr 1
  funext r
  simp [Function.comp, casRow_uuid]

theorem insertByCreated_perm (r : JobQueueRow) (l : List JobQueueRow) :
    (insertByCreated r l).Perm (r :: l) := by
  induction l with
  | nil => rfl
  | cons b rest ih =>
    unfold insertByCreated
    by_cases hle : r.created_at_epoch_ms ≤ b.created_at_epoch_ms
    · rw [if_pos hle]
    · rw [if_neg hle]
      exact (ih.cons b).trans (List.Perm.swap r b rest)

theorem sortByCreated_perm (l : List JobQueueRow) : (sortByCreated l).Perm l := by
  induction l with
  | nil => rfl
  | cons r rest ih =>
    unfold sortByCreated
    exact (insertByCreated_perm r (sortByCreated rest)).trans (ih.cons r)

theorem find?_casTable (ws : List WorkflowStatusRow) (id id2 : String) :
    (casTable ws id).find? (fun r => decide (r.workflow_uuid = id2)) =
      (ws.find? (fun r => decide (r.workflow_uuid = id2))).map (casRow id) := by
  unfold casTable
  rw [List.find?_map]
  have hp : ((fun r : WorkflowStatusRow => decide (r.workflow_uuid = id2)) ∘ casRow id) =
      (fun r : WorkflowStatusRow => decide (r.workflow_uuid = id2)) := by
    funext r
    simp [Function.comp, casRow_uuid]
  rw [hp]

theorem statusOf_casTable_ne (ws : List WorkflowStatusRow) (id id2 : String)
    (h : id2 ≠ id) : statusOf (casTable ws id) id2 = statusOf ws id2 := by
  unfold statusOf
  rw [find?_casTable]
  cases hf : ws.find? (fun r => decide (r.workflow_uuid = id2)) with
  | none => rfl
  | some r =>
    have hr : r.workflow_uuid = id2 := by simpa using List.find?_some hf
    have hcas : casRow id r = r := by
      unfold casRow
      rw [if_neg]
      rintro ⟨h1, -⟩
      exact h (by rw [← hr, h1])
    simp [hcas]

theorem statusOf_casTable_self (ws : List WorkflowStatusRow) (id : String) :
    statusOf (casTable ws id) id =
      if statusOf ws id = some .ENQUEUED then some .PENDING else statusOf ws id := by
  unfold statusOf
  rw [find?_casTable]
  cases hf : ws.find? (fun r => decide (r.workflow_uuid = id)) with
  | none => simp
  | some r =>
    have hr : r.workflow_uuid = id := by simpa using List.find?_some hf
    by_cases hs : r.status = .ENQUEUED
    · have hcas : casRow id r = { r with status := .PENDING } := by
        unfold casRow
        rw [if_pos ⟨hr, hs⟩]
      simp [hcas, hs]
    · have hcas : casRow id r = r := by
        unfold casRow
        rw [if_neg (fun hc => hs hc.2)]
      simp [hcas, hs]

theorem statusOf_casTable_pending (ws : List WorkflowStatusRow) (j id : String)
    (h : statusOf ws id = some .PENDING) :
    statusOf (casTable ws j) id = some .PENDING := by
  by_cases hj : id = j
  · subst hj
    rw [statusOf_casTable_self, h]
    simp
  · rw [statusOf_casTable_ne ws j id hj, h]

theorem casRowcount_pos_iff (ws : List WorkflowStatusRow) (id : String)
    (h : (ws.map (·.workflow_uuid)).Nodup) :
    0 < casRowcount ws id ↔ statusOf ws id = some .ENQUEUED := by
  unfold casRowcount statusOf
  constructor
  · intro hpos
    rcases List.exists_mem_of_length_pos hpos with ⟨r, hr⟩
    rw [List.mem_filter] at hr
    obtain ⟨hrm, hrp⟩ := hr
    have hp : r.workflow_uuid = id ∧ r.status = .ENQUEUED := by simpa using hrp
    have hsome : (ws.find? (fun x => decide (x.workflow_uuid = id))).isSome := by
      rw [List.find?_isSome]
      exact ⟨r, hrm, by simp [hp.1]⟩
    rcases Option.isSome_iff_exists.mp hsome with ⟨r0, hr0⟩
    have hr0p : r0.workflow_uuid = id := by simpa using List.find?_some hr0
    have hr0m : r0 ∈ ws := List.mem_of_find?_eq_some hr0
    have hrr : r = r0 := List.inj_on_of_nodup_map h hrm hr0m (by rw [hp.1, hr0p])
    rw [hr0]
    simp [← hrr, hp.2]
  · intro hst
    cases hf : ws.find? (fun x => decide (x.workflow_uuid = id)) with
    | none => rw [hf] at hst; cases hst
    | some r =>
      rw [hf] at hst
      have hrs : r.status = .ENQUEUED := by simpa using hst
      have hru : r.workflow_uuid = id := by simpa using List.find?_some hf
      have hm : r ∈ ws := List.mem_of_find?_eq_some hf
      have hmem : r ∈ ws.filter
          (fun x => decide (x.workflow_uuid = id ∧ x.status = .ENQUEUED)) := by
        rw [List.mem_filter]
        exact ⟨hm, by simp [hru, hrs]⟩
      exact List.length_pos.mpr (fun he => by rw [he] at hmem; cases hmem)

theorem admitLoop_map_uuid (ids : List String) : ∀ ws : List WorkflowStatusRow,
    ((admitLoop ws ids).1).map (·.workflow_uuid) = ws.map (·.workflow_uuid) := by
  induction ids with
  | nil => intro ws; rfl
  | cons id rest ih =>
    intro ws
    unfold admitLoop
    dsimp only
    rw [ih (casTable ws id), casTable_map_uuid]

theorem admitLoop_preserves_pending (ids : List String) :
    ∀ (ws : List WorkflowStatusRow) (id0 : String),
    statusOf ws id0 = some .PENDING →
    statusOf (admitLoop ws ids).1 id0 = some .PENDING := by
  induction ids with
  | nil => intro ws id0 h; exact h
  | cons id rest ih =>
    intro ws id0 h
    unfold admitLoop
    dsimp only
    exact ih (casTable ws id) id0 (statusOf_casTable_pending ws id id0 h)

theorem admitLoop_ret_filter (ids : List String) : ∀ ws : List WorkflowStatusRow,
    (ws.map (·.workflow_uuid)).Nodup → ids.Nodup →
    (admitLoop ws ids).2 =
      ids.filter (fun id => decide (statusOf ws id = some .ENQUEUED)) := by
  induction ids with
  | nil => intro ws h hn; rfl
  | cons id rest ih =>
    intro ws h hn
    unfold admitLoop
    dsimp only
    have hn1 : id ∉ rest := (List.nodup_cons.mp hn).1
    have hn2 : rest.Nodup := (List.nodup_cons.mp hn).2
    have hw1 : ((casTable ws id).map (·.workflow_uuid)).Nodup := by
      rw [casTable_map_uuid]
      exact h
    have hrest : (admitLoop (casTable ws id) rest).2 =
        rest.filter (fun id2 => decide (statusOf ws id2 = some .ENQUEUED)) := by
      rw [ih (casTable ws id) hw1 hn2]
      apply List.filter_congr
      intro id2 hid2
      have hne : id2 ≠ id := fun he => hn1 (he ▸ hid2)
      rw [statusOf_casTable_ne ws id id2 hne]
    by_cases hs : statusOf ws id = some .ENQUEUED
    · rw [if_pos ((casRowcount_pos_iff ws id h).mpr hs), hrest, List.filter_cons]
      simp [hs]
    · rw [if_neg (fun hc => hs ((casRowcount_pos_iff ws id h).mp hc)), hrest,
        List.filter_cons]
      simp [hs]

theorem admitLoop_pending_mem (ids : List String) : ∀ ws : List WorkflowStatusRow,
    (ws.map (·.workflow_uuid)).Nodup →
    ∀ id0 ∈ (admitLoop ws ids).2,
      statusOf (admitLoop ws ids).1 id0 = some .PENDING := by
  induction ids with
  | nil => intro ws h id0 h0; cases h0
  | cons id rest ih =>
    intro ws h id0 h0
    unfold admitLoop at h0 ⊢
    dsimp only at h0 ⊢
    have hw1 : ((casTable ws id).map (·.workflow_uuid)).Nodup := by
      rw [casTable_map_uuid]
      exact h
    by_cases hs : 0 < casRowcount ws id
    · rw [if_pos hs] at h0
      rcases List.mem_cons.mp h0 with he | hm
      · subst he
        have hE : statusOf ws id0 = some .ENQUEUED := (casRowcount_pos_iff ws id0 h).mp hs
        have hP : statusOf (casTable ws id0) id0 = some .PENDING := by
          rw [statusOf_casTable_self, hE]
          simp
        exact admitLoop_preserves_pending rest (casTable ws id0) id0 hP
      · exact ih (casTable ws id) hw1 id0 hm
    · rw [if_neg hs] at h0
      exact ih (casTable ws id) hw1 id0 h0

theorem dequeuedIds_nodup (db : SysDB) (queue_name : String) (concurrency : Option Nat)
    (hQ : (db.job_queue.map (·.workflow_uuid)).Nodup) :
    (dequeuedIds db queue_name concurrency).Nodup := by
  unfold dequeuedIds
  cases concurrency with
  | none =>
    dsimp only
    exact List.Nodup.sublist
      ((List.filter_sublist db.job_queue).map (·.workflow_uuid)) hQ
  | some c =>
    dsimp only
    have h1 : ((db.job_queue.filter
        (fun r => decide (r.queue_name = queue_name))).map (·.workflow_uuid)).Nodup :=
      List.Nodup.sublist ((List.filter_sublist db.job_queue).map (·.workflow_uuid)) hQ
    have h2 : ((sortByCreated (db.job_queue.filter
        (fun r => decide (r.queue_name = queue_name)))).map
          (fun r : JobQueueRow => r.workflow_uuid)).Nodup :=
      (List.Perm.map (fun r : JobQueueRow => r.workflow_uuid)
        (sortByCreated_perm (db.job_queue.filter
          (fun r => decide (r.queue_name = queue_name))))).nodup_iff.mpr h1
    exact List.Nodup.sublist
      (List.Sublist.map (fun r : JobQueueRow => r.workflow_uuid)
        (List.take_sublist c (sortByCreated (db.job_queue.filter
          (fun r => decide (r.queue_name = queue_name)))))) h2

/-- C2: `start_queued_workflows` returns exactly those selected job-queue ids
whose `workflow_status` row was ENQUEUED at its compare-and-swap UPDATE (the row
count gates inclusion); every returned id ends PENDING, and a repeated run on
the resulting state never returns an already-admitted id, so a workflow is
admitted ENQUEUED to PENDING at most once.  The Nodup hypotheses are the primary
keys of `workflow_status` and `job_queue`. -/
theorem start_queued_workflows_cas_admission (db : SysDB) (queue_name : String)
    (concurrency : Option Nat)
    (hW : (db.workflow_status.map (·.workflow_uuid)).Nodup)
    (hQ : (db.job_queue.map (·.workflow_uuid)).Nodup) :
    (start_queued_workflows db queue_name concurrency).2 =
      (dequeuedIds db queue_name concurrency).filter
        (fun id => decide (statusOf db.workflow_status id = some .ENQUEUED)) ∧
    (∀ id ∈ (start_queued_workflows db queue_name concurrency).2,
      statusOf (start_queued_workflows db queue_name concurrency).1.workflow_status id =
        some .PENDING) ∧
    (∀ id ∈ (start_queued_workflows db queue_name concurrency).2,
      id ∉ (start_queued_workflows (start_queued_workflows db queue_name concurrency).1
        queue_name concurrency).2) := by
  have hN := dequeuedIds_nodup db queue_name concurrency hQ
  refine ⟨?_, ?_, ?_⟩
  · exact admitLoop_ret_filter (dequeuedIds db queue_name concurrency)
      db.workflow_status hW hN
  · exact admitLoop_pending_mem (dequeuedIds db queue_name concurrency)
      db.workflow_status hW
  · intro id hid hcontra
    have hW1 : ((start_queued_workflows db queue_name
        concurrency).1.workflow_status.map (·.workflow_uuid)).Nodup := by
      have := admitLoop_map_uuid (dequeuedIds db queue_name concurrency)
        db.workflow_status
      exact this ▸ hW
    have hret2 : (start_queued_workflows (start_queued_workflows db queue_name
        concurrency).1 queue_name concurrency).2 =
        (dequeuedIds db queue_name concurrency).filter
          (fun id2 => decide (statusOf (start_queued_workflows db queue_name
            concurrency).1.workflow_status id2 = some .ENQUEUED)) :=
      admitLoop_ret_filter (dequeuedIds db queue_name concurrency) _ hW1 hN
    rw [hret2, List.mem_filter] at hcontra
    have hP : statusOf (start_queued_workflows db queue_name
        concurrency).1.workflow_status id = some .PENDING :=
      admitLoop_pending_mem (dequeuedIds db queue_name concurrency)
        db.workflow_status hW id hid
    have hE : statusOf (start_queued_workflows db queue_name
        concurrency).1.workflow_status id = some .ENQUEUED := by
      simpa using hcontra.2
    rw [hP] at hE
    cases hE

/-- Witness for C2 on a queue holding one ENQUEUED and one already-SUCCESS
workflow: only the ENQUEUED one is admitted and it ends PENDING. -/
theorem start_queued_workflows_cas_admission_witness :
    (exampleQueueDB.workflow_status.map (·.workflow_uuid)).Nodup ∧
    (exampleQueueDB.job_queue.map (·.workflow_uuid)).Nodup ∧
    (start_queued_workflows exampleQueueDB "q" (some 5)).2 = ["w1"] ∧
    statusOf (start_queued_workflows exampleQueueDB "q"
      (some 5)).1.workflow_status "w1" = some .PENDING := by
  refine ⟨by decide, by decide, ?_, ?_⟩
  · rw [(start_queued_workflows_cas_admission exampleQueueDB "q" (some 5)
      (by decide) (by decide)).1]
    decide
  · exact (start_queued_workflows_cas_admission exampleQueueDB "q" (some 5)
      (by decide) (by decide)).2.1 "w1" (by decide)

theorem oldestNotification_eq_none (l : List NotificationsRow) :
    oldestNotification l = none ↔ l = [] := by
  cases l with
  | nil => simp [oldestNotification]
  | cons r rest =>
    unfold oldestNotification
    split
    · simp
    · split <;> simp

theorem oldestNotification_mem (l : List NotificationsRow) (o : NotificationsRow)
    (h : oldestNotification l = some o) : o ∈ l := by
  induction l with
  | nil => cases h
  | cons r rest ih =>
    unfold oldestNotification at h
    split at h
    · injection h with hro
      subst hro
      exact List.mem_cons_self _ _
    · rename_i b hrest
      split at h
      · injection h with hro
        subst hro
        exact List.mem_cons_self _ _
      · injection h with hbo
        exact List.mem_cons_of_mem _ (ih (hbo ▸ hrest))

theorem oldestNotification_le (l : List NotificationsRow) :
    ∀ o, oldestNotification l = some o →
    ∀ r ∈ l, o.created_at_epoch_ms ≤ r.created_at_epoch_ms := by
  induction l with
  | nil => intro o h r hr; cases hr
  | cons a rest ih =>
    intro o h r hr
    unfold oldestNotification at h
    split at h
    · rename_i hrest
      injection h with hao
      subst hao
      have hnil : rest = [] := (oldestNotification_eq_none rest).mp hrest
      subst hnil
      rcases List.mem_cons.mp hr with he | hm
      · subst he
        exact Nat.le_refl _
      · cases hm
    · rename_i b hrest
      split at h
      · rename_i hle
        injection h with hao
        subst hao
        rcases List.mem_cons.mp hr with he | hm
        · subst he
          exact Nat.le_refl _
        · exact Nat.le_trans hle (ih b hrest r hm)
      · rename_i hle
        injection h with hbo
        subst hbo
        rcases List.mem_cons.mp hr with he | hm
        · subst he
          exact Nat.le_of_lt (Nat.lt_of_not_le hle)
        · exact ih b hrest r hm

theorem filter_eq_singleton (l : List NotificationsRow) (p : NotificationsRow → Bool)
    (o : NotificationsRow) (hcount : l.count o = 1)
    (hp : p o = true) (hothers : ∀ x ∈ l, p x = true → x = o) :
    l.filter p = [o] := by
  induction l with
  | nil => simp at hcount
  | cons a rest ih =>
    rw [List.filter_cons]
    by_cases hao : a = o
    · subst hao
      rw [if_pos hp]
      have hcr : rest.count a = 0 := by
        rw [List.count_cons_self] at hcount
        omega
      have hrest : rest.filter p = [] := by
        rw [List.filter_eq_nil_iff]
        intro x hx hpx
        have hxo : x = a := hothers x (List.mem_cons_of_mem _ hx) hpx
        exact (List.count_eq_zero.mp hcr) (hxo ▸ hx)
      rw [hrest]
    · have hpa : ¬(p a = true) :=
        fun hpa => hao (hothers a (List.mem_cons_self a rest) hpa)
      rw [if_neg hpa]
      have hcount2 : rest.count o = 1 := by
        rw [List.count_cons_of_ne (fun he => hao he.symm)] at hcount
        exact hcount
      exact ih hcount2 (fun x hx hpx => hothers x (List.mem_cons_of_mem _ hx) hpx)

/-- C5 (counterexample): with two notifications for the same destination and
topic carrying the same `created_at_epoch_ms`, a single consuming step deletes
BOTH rows (the DELETE joins the CTE row on the non-unique triple) while
returning only the first message — not exactly the oldest row. -/
theorem recv_consume_tied_timestamps :
    exampleTiedDB.notifications.length = 2 ∧
    recv_consume exampleTiedDB "w" 3 "t" =
      .ok ({ exampleTiedDB with
          notifications := [],
          operation_outputs :=
            [{ workflow_uuid := "w", function_id := 3,
               output := some (.vstr "m1"), error := none }] },
        .vstr "m1") :=
  ⟨rfl, by rfl⟩

/-- C5 (amended): when the notifications matching the destination and topic
carry pairwise-distinct `created_at_epoch_ms` values (rows of other
destinations or topics may share timestamps freely), the consuming step of
`recv` deletes exactly the oldest matching row, returns its deserialized
message — or null when no row matches — and journals the serialized result
under `(workflow_uuid, function_id)` in the same transaction; every surviving
matching row is strictly newer, so repeated calls observe messages in
ascending `created_at_epoch_ms` order.  With tied timestamps among the
matching rows the DELETE removes every row of the oldest triple at once. -/
theorem recv_consume_oldest_distinct (db : SysDB) (workflow_uuid : String)
    (function_id : Nat) (topic : String)
    (hJ : hasOpRow db.operation_outputs workflow_uuid function_id = false)
    (hD : ((db.notifications.filter (notifMatch workflow_uuid topic)).map
      (·.created_at_epoch_ms)).Nodup) :
    (db.notifications.filter (notifMatch workflow_uuid topic) = [] →
      recv_consume db workflow_uuid function_id topic =
        .ok ({ db with operation_outputs := db.operation_outputs ++
            [{ workflow_uuid := workflow_uuid, function_id := function_id,
               output := some (serialize .null), error := none }] },
          .null)) ∧
    (∀ o, oldestNotification (db.notifications.filter
        (notifMatch workflow_uuid topic)) = some o →
      db.notifications.filter (tripleMatch o) = [o] ∧
      recv_consume db workflow_uuid function_id topic =
        .ok ({ db with
            notifications := db.notifications.filter (fun r => !(tripleMatch o r)),
            operation_outputs := db.operation_outputs ++
              [{ workflow_uuid := workflow_uuid, function_id := function_id,
                 output := some (serialize (deserialize o.message)),
                 error := none }] },
          deserialize o.message) ∧
      (db.notifications.filter (fun r => !(tripleMatch o r))).length + 1 =
        db.notifications.length ∧
      (∀ r ∈ db.notifications.filter (fun r => !(tripleMatch o r)),
        notifMatch workflow_uuid topic r = true →
        o.created_at_epoch_ms < r.created_at_epoch_ms)) := by
  constructor
  · intro hnil
    have ho : oldestNotification (db.notifications.filter
        (notifMatch workflow_uuid topic)) = none := by
      rw [hnil]
      rfl
    simp only [recv_consume, ho]
    rw [record_ok db.operation_outputs workflow_uuid function_id
      (some (serialize .null)) hJ]
  · intro o ho
    have hmem0 : o ∈ db.notifications.filter (notifMatch workflow_uuid topic) :=
      oldestNotification_mem _ o ho
    have hmemN : o ∈ db.notifications := (List.mem_filter.mp hmem0).1
    have hoM : notifMatch workflow_uuid topic o = true := (List.mem_filter.mp hmem0).2
    have hoMP : o.destination_uuid = workflow_uuid ∧ o.topic = topic := by
      simpa [notifMatch] using hoM
    have hndM : (db.notifications.filter (notifMatch workflow_uuid topic)).Nodup :=
      List.Nodup.of_map _ hD
    have hcountM : (db.notifications.filter
        (notifMatch workflow_uuid topic)).count o = 1 :=
      List.count_eq_one_of_mem hndM hmem0
    have hcount : db.notifications.count o = 1 := by
      rw [← List.count_filter hoM]
      exact hcountM
    have hsingle : db.notifications.filter (tripleMatch o) = [o] := by
      apply filter_eq_singleton _ _ _ hcount
      · simp [tripleMatch]
      · intro x hx hpx
        have hx3 : x.destination_uuid = o.destination_uuid ∧ x.topic = o.topic ∧
            x.created_at_epoch_ms = o.created_at_epoch_ms := by
          simpa [tripleMatch] using hpx
        have hxM : notifMatch workflow_uuid topic x = true := by
          simp [notifMatch, hx3.1, hx3.2.1, hoMP.1, hoMP.2]
        have hxmem : x ∈ db.notifications.filter (notifMatch workflow_uuid topic) :=
          List.mem_filter.mpr ⟨hx, hxM⟩
        exact List.inj_on_of_nodup_map hD hxmem hmem0 hx3.2.2
    refine ⟨hsingle, ?_, ?_, ?_⟩
    · simp only [recv_consume, ho, hsingle]
      rw [record_ok db.operation_outputs workflow_uuid function_id
        (some (serialize (deserialize o.message))) hJ]
    · have hT := List.length_eq_length_filter_add
        (l := db.notifications) (tripleMatch o)
      rw [hsingle] at hT
      have hone : ([o] : List NotificationsRow).length = 1 := rfl
      rw [hone] at hT
      omega
    · intro r hr hrM
      rw [List.mem_filter] at hr
      have hrN : r ∈ db.notifications := hr.1
      have hrT : ¬(tripleMatch o r = true) := by simpa using hr.2
      have hrMP : r.destination_uuid = workflow_uuid ∧ r.topic = topic := by
        simpa [notifMatch] using hrM
      have hle : o.created_at_epoch_ms ≤ r.created_at_epoch_ms :=
        oldestNotification_le _ o ho r (List.mem_filter.mpr ⟨hrN, hrM⟩)
      rcases Nat.lt_or_ge o.created_at_epoch_ms r.created_at_epoch_ms with hlt | hge
      · exact hlt
      · exfalso
        apply hrT
        have heq : r.created_at_epoch_ms = o.created_at_epoch_ms :=
          Nat.le_antisymm hge hle
        simp [tripleMatch, hrMP.1, hrMP.2, hoMP.1, hoMP.2, heq]

/-- Witness for C5 amended claim: the matching notifications have distinct
timestamps even though an unrelated destination shares one of them; the older
message m1 is consumed, exactly its row is deleted, and the result is
journaled. -/
theorem recv_consume_oldest_distinct_witness :
    hasOpRow exampleFifoDB.operation_outputs "w" 3 = false ∧
    ((exampleFifoDB.notifications.filter (notifMatch "w" "t")).map
      (·.created_at_epoch_ms)).Nodup ∧
    exampleFifoDB.notifications.filter (tripleMatch exampleOldestRow) =
      [exampleOldestRow] ∧
    recv_consume exampleFifoDB "w" 3 "t" =
      .ok ({ exampleFifoDB with
          notifications := exampleFifoDB.notifications.filter
            (fun r => !(tripleMatch exampleOldestRow r)),
          operation_outputs := exampleFifoDB.operation_outputs ++
            [{ workflow_uuid := "w", function_id := 3,
               output := some (serialize (deserialize exampleOldestRow.message)),
               error := none }] },
        deserialize exampleOldestRow.message) :=
  ⟨rfl, by decide,
    ((recv_consume_oldest_distinct exampleFifoDB "w" 3 "t" rfl (by decide)).2
      exampleOldestRow rfl).1,
    ((recv_consume_oldest_distinct exampleFifoDB "w" 3 "t" rfl (by decide)).2
      exampleOldestRow rfl).2.1⟩

theorem insertSet_mem (l : List String) (v u : String) (h : u ∈ insertSet l v) :
    u ∈ l ∨ u = v := by
  unfold insertSet at h
  split at h
  · exact .inl h
  · rcases List.mem_append.mp h with hL | hR
    · exact .inl hL
    · exact .inr (List.mem_singleton.mp hR)

theorem eraseSet_sub (l : List String) (v u : String) (h : u ∈ eraseSet l v) :
    u ∈ l :=
  (List.mem_filter.mp h).1

theorem lookupBuf_cons {β : Type} (p : String × β) (rest : List (String × β))
    (u : String) :
    lookupBuf (p :: rest) u = if p.1 = u then some p.2 else lookupBuf rest u := rfl

theorem lookupBuf_cons_ne {β : Type} (p : String × β) (rest : List (String × β))
    (u : String) (h : ¬(p.1 = u)) : lookupBuf (p :: rest) u = lookupBuf rest u := by
  rw [lookupBuf_cons, if_neg h]

theorem lookupBuf_eraseKey_ne {β : Type} (l : List (String × β)) (id u : String)
    (h : u ≠ id) : lookupBuf (eraseKeyBuf l id) u = lookupBuf l u := by
  induction l with
  | nil => rfl
  | cons p rest ih =>
    unfold eraseKeyBuf at ih ⊢
    rw [List.filter_cons]
    by_cases hp : p.1 = id
    · rw [if_neg (by simp [hp])]
      rw [ih, lookupBuf_cons_ne p rest u (fun hpu => h (by rw [← hpu, hp]))]
    · rw [if_pos (by simp [hp])]
      rw [lookupBuf_cons, lookupBuf_cons, ih]

theorem mapStatus_covers (tbl : List WorkflowStatusRow)
    (f : WorkflowStatusRow → WorkflowStatusRow)
    (hf : ∀ r, (f r).workflow_uuid = r.workflow_uuid) (u : String)
    (h : ∃ r ∈ tbl, r.workflow_uuid = u) :
    ∃ r ∈ tbl.map f, r.workflow_uuid = u := by
  rcases h with ⟨r, hr, he⟩
  exact ⟨f r, List.mem_map_of_mem f hr, by rw [hf r, he]⟩

theorem upsert_covers (tbl : List WorkflowStatusRow) (status : WorkflowStatusRow)
    (replace in_recovery : Bool) (u : String)
    (h : (∃ r ∈ tbl, r.workflow_uuid = u) ∨ u = status.workflow_uuid) :
    ∃ r ∈ upsertWorkflowStatusTable tbl status replace in_recovery,
      r.workflow_uuid = u := by
  unfold upsertWorkflowStatusTable
  by_cases hany : tbl.any
      (fun r => decide (r.workflow_uuid = status.workflow_uuid)) = true
  · rw [if_pos hany]
    have hexists : ∃ r0 ∈ tbl, r0.workflow_uuid = status.workflow_uuid := by
      rw [List.any_eq_true] at hany
      rcases hany with ⟨r0, hr0, hp⟩
      exact ⟨r0, hr0, by simpa using hp⟩
    have hAll : ∃ r ∈ tbl, r.workflow_uuid = u := by
      rcases h with hL | hR
      · exact hL
      · subst hR
        exact hexists
    split
    · exact mapStatus_covers _ _
        (fun r => by by_cases hc : r.workflow_uuid = status.workflow_uuid <;> simp [hc])
        u hAll
    · split
      · exact mapStatus_covers _ _
          (fun r => by by_cases hc : r.workflow_uuid = status.workflow_uuid <;> simp [hc])
          u hAll
      · exact hAll
  · rw [if_neg hany]
    rcases h with hL | hR
    · rcases hL with ⟨r, hr, he⟩
      exact ⟨r, List.mem_append_left _ hr, he⟩
    · subst hR
      exact ⟨status, List.mem_append_right _ (List.mem_cons_self _ _), rfl⟩

theorem insertInputs_mem (tbl : List WorkflowInputsRow) (wf : String) (v : Value) :
    ∀ row ∈ insertWorkflowInputsTable tbl wf v,
      row ∈ tbl ∨ row.workflow_uuid = wf := by
  intro row hrow
  unfold insertWorkflowInputsTable at hrow
  split at hrow
  · exact .inl hrow
  · rcases List.mem_append.mp hrow with hL | hR
    · exact .inl hL
    · rcases List.mem_cons.mp hR with he | hc
      · exact .inr (by rw [he])
      · cases hc

theorem update_status_exported_cases (st : BufState) (status : WorkflowStatusRow)
    (replace in_recovery : Bool) (u : String)
    (h : u ∈ (update_workflow_status st status replace
      in_recovery).exported_temp_txn_wf_status) :
    u ∈ st.exported_temp_txn_wf_status ∨ u = status.workflow_uuid := by
  have h2 : u ∈ (if status.workflow_uuid ∈ st.temp_txn_wf_ids then
      insertSet st.exported_temp_txn_wf_status status.workflow_uuid
    else st.exported_temp_txn_wf_status) := h
  split at h2
  · exact insertSet_mem _ _ _ h2
  · exact .inl h2

theorem update_status_inv (st : BufState) (status : WorkflowStatusRow)
    (replace in_recovery : Bool)
    (hExp : ∀ u ∈ st.exported_temp_txn_wf_status,
      ∃ r ∈ st.db.workflow_status, r.workflow_uuid = u)
    (hFK : ∀ row ∈ st.db.workflow_inputs,
      ∃ r ∈ st.db.workflow_status, r.workflow_uuid = row.workflow_uuid) :
    (∀ u ∈ (update_workflow_status st status replace
        in_recovery).exported_temp_txn_wf_status,
      ∃ r ∈ (update_workflow_status st status replace
        in_recovery).db.workflow_status, r.workflow_uuid = u) ∧
    (∀ row ∈ (update_workflow_status st status replace
        in_recovery).db.workflow_inputs,
      ∃ r ∈ (update_workflow_status st status replace
        in_recovery).db.workflow_status, r.workflow_uuid = row.workflow_uuid) := by
  constructor
  · intro u hu
    rcases update_status_exported_cases st status replace in_recovery u hu with hold | heq
    · exact upsert_covers st.db.workflow_status status replace in_recovery u
        (.inl (hExp u hold))
    · exact upsert_covers st.db.workflow_status status replace in_recovery u (.inr heq)
  · intro row hrow
    exact upsert_covers st.db.workflow_status status replace in_recovery
      row.workflow_uuid (.inl (hFK row hrow))

theorem flushStatusLoop_frame (ids : List String) : ∀ (st : BufState) (b : Nat),
    (flushStatusLoop st ids b).workflow_inputs_buffer = st.workflow_inputs_buffer ∧
    (flushStatusLoop st ids b).temp_txn_wf_ids = st.temp_txn_wf_ids ∧
    (flushStatusLoop st ids b).db.workflow_inputs = st.db.workflow_inputs := by
  induction ids with
  | nil =>
    intro st b
    cases b <;> exact ⟨rfl, rfl, rfl⟩
  | cons id rest ih =>
    intro st b
    cases b with
    | zero => exact ⟨rfl, rfl, rfl⟩
    | succ b2 =>
      unfold flushStatusLoop
      cases hl : lookupBuf st.workflow_status_buffer id with
      | none => exact ih st (Nat.succ b2)
      | some s => exact ih _ b2

theorem flushStatusLoop_inv (ids : List String) : ∀ (st : BufState) (b : Nat),
    (∀ u ∈ st.exported_temp_txn_wf_status,
      ∃ r ∈ st.db.workflow_status, r.workflow_uuid = u) →
    (∀ row ∈ st.db.workflow_inputs,
      ∃ r ∈ st.db.workflow_status, r.workflow_uuid = row.workflow_uuid) →
    ((∀ u ∈ (flushStatusLoop st ids b).exported_temp_txn_wf_status,
        ∃ r ∈ (flushStatusLoop st ids b).db.workflow_status, r.workflow_uuid = u) ∧
     (∀ row ∈ (flushStatusLoop st ids b).db.workflow_inputs,
        ∃ r ∈ (flushStatusLoop st ids b).db.workflow_status,
          r.workflow_uuid = row.workflow_uuid)) := by
  induction ids with
  | nil =>
    intro st b hExp hFK
    cases b <;> exact ⟨hExp, hFK⟩
  | cons id rest ih =>
    intro st b hExp hFK
    cases b with
    | zero => exact ⟨hExp, hFK⟩
    | succ b2 =>
      unfold flushStatusLoop
      cases hl : lookupBuf st.workflow_status_buffer id with
      | none => exact ih st (Nat.succ b2) hExp hFK
      | some s =>
        have hstep := update_status_inv
          { st with workflow_status_buffer := eraseKeyBuf st.workflow_status_buffer id }
          s true false hExp hFK
        exact ih _ b2 hstep.1 hstep.2

theorem flushInputsLoop_exported_sub (ids : List String) : ∀ (st : BufState) (b : Nat),
    ∀ u ∈ (flushInputsLoop st ids b).exported_temp_txn_wf_status,
      u ∈ st.exported_temp_txn_wf_status := by
  induction ids with
  | nil =>
    intro st b u hu
    cases b <;> exact hu
  | cons id rest ih =>
    intro st b u hu
    cases b with
    | zero => exact hu
    | succ b2 =>
      unfold flushInputsLoop at hu
      by_cases hg : id ∈ st.exported_temp_txn_wf_status
      · rw [if_pos hg] at hu
        cases hl : lookupBuf st.workflow_inputs_buffer id with
        | none =>
          rw [hl] at hu
          exact ih st (Nat.succ b2) u hu
        | some inputs =>
          rw [hl] at hu
          have hu2 := ih _ b2 u hu
          have hu3 : u ∈ (if id ∈ st.temp_txn_wf_ids then
              eraseSet st.exported_temp_txn_wf_status id
            else st.exported_temp_txn_wf_status) := hu2
          split at hu3
          · exact eraseSet_sub _ _ _ hu3
          · exact hu3
      · rw [if_neg hg] at hu
        exact ih st (Nat.succ b2) u hu

theorem flushInputsLoop_inv (ids : List String) : ∀ (st : BufState) (b : Nat),
    (∀ u ∈ st.exported_temp_txn_wf_status,
      ∃ r ∈ st.db.workflow_status, r.workflow_uuid = u) →
    (∀ row ∈ st.db.workflow_inputs,
      ∃ r ∈ st.db.workflow_status, r.workflow_uuid = row.workflow_uuid) →
    ((∀ u ∈ (flushInputsLoop st ids b).exported_temp_txn_wf_status,
        ∃ r ∈ (flushInputsLoop st ids b).db.workflow_status, r.workflow_uuid = u) ∧
     (∀ row ∈ (flushInputsLoop st ids b).db.workflow_inputs,
        ∃ r ∈ (flushInputsLoop st ids b).db.workflow_status,
          r.workflow_uuid = row.workflow_uuid)) := by
  induction ids with
  | nil =>
    intro st b hExp hFK
    cases b <;> exact ⟨hExp, hFK⟩
  | cons id rest ih =>
    intro st b hExp hFK
    cases b with
    | zero => exact ⟨hExp, hFK⟩
    | succ b2 =>
      unfold flushInputsLoop
      by_cases hg : id ∈ st.exported_temp_txn_wf_status
      · rw [if_pos hg]
        cases hl : lookupBuf st.workflow_inputs_buffer id with
        | none => exact ih st (Nat.succ b2) hExp hFK
        | some inputs =>
          have hExp2 : ∀ u ∈ (update_workflow_inputs
              { st with workflow_inputs_buffer :=
                  eraseKeyBuf st.workflow_inputs_buffer id }
              id inputs).exported_temp_txn_wf_status,
              ∃ r ∈ (update_workflow_inputs
                { st with workflow_inputs_buffer :=
                    eraseKeyBuf st.workflow_inputs_buffer id }
                id inputs).db.workflow_status, r.workflow_uuid = u := by
            intro u hu
            have hu2 : u ∈ (if id ∈ st.temp_txn_wf_ids then
                eraseSet st.exported_temp_txn_wf_status id
              else st.exported_temp_txn_wf_status) := hu
            have hu3 : u ∈ st.exported_temp_txn_wf_status := by
              split at hu2
              · exact eraseSet_sub _ _ _ hu2
              · exact hu2
            exact hExp u hu3
          have hFK2 : ∀ row ∈ (update_workflow_inputs
              { st with workflow_inputs_buffer :=
                  eraseKeyBuf st.workflow_inputs_buffer id }
              id inputs).db.workflow_inputs,
              ∃ r ∈ (update_workflow_inputs
                { st with workflow_inputs_buffer :=
                    eraseKeyBuf st.workflow_inputs_buffer id }
                id inputs).db.workflow_status,
                r.workflow_uuid = row.workflow_uuid := by
            intro row hrow
            have hrow2 : row ∈ insertWorkflowInputsTable st.db.workflow_inputs
                id inputs := hrow
            rcases insertInputs_mem _ _ _ row hrow2 with hold | hnew
            · exact hFK row hold
            · rw [hnew]
              exact hExp id hg
          exact ih _ b2 hExp2 hFK2
      · rw [if_neg hg]
        exact ih st (Nat.succ b2) hExp hFK

theorem flushInputsLoop_flushed_exported (ids : List String) :
    ∀ (st : BufState) (b : Nat) (u : String),
    (lookupBuf st.workflow_inputs_buffer u).isSome = true →
    lookupBuf (flushInputsLoop st ids b).workflow_inputs_buffer u = none →
    u ∈ st.exported_temp_txn_wf_status := by
  induction ids with
  | nil =>
    intro st b u h1 h2
    have h2b : lookupBuf st.workflow_inputs_buffer u = none := by
      cases b with
      | zero => exact h2
      | succ n => exact h2
    rw [h2b] at h1
    cases h1
  | cons id rest ih =>
    intro st b u h1 h2
    cases b with
    | zero =>
      have h2b : lookupBuf st.workflow_inputs_buffer u = none := h2
      rw [h2b] at h1
      cases h1
    | succ b2 =>
      unfold flushInputsLoop at h2
      by_cases hg : id ∈ st.exported_temp_txn_wf_status
      · rw [if_pos hg] at h2
        cases hl : lookupBuf st.workflow_inputs_buffer id with
        | none =>
          rw [hl] at h2
          exact ih st (Nat.succ b2) u h1 h2
        | some inputs =>
          rw [hl] at h2
          by_cases hui : u = id
          · rw [hui]
            exact hg
          · have hbuf : lookupBuf (update_workflow_inputs
                { st with workflow_inputs_buffer :=
                    eraseKeyBuf st.workflow_inputs_buffer id }
                id inputs).workflow_inputs_buffer u =
                lookupBuf st.workflow_inputs_buffer u := by
              have heq : (update_workflow_inputs
                  { st with workflow_inputs_buffer :=
                      eraseKeyBuf st.workflow_inputs_buffer id }
                  id inputs).workflow_inputs_buffer =
                  eraseKeyBuf st.workflow_inputs_buffer id := rfl
              rw [heq, lookupBuf_eraseKey_ne _ _ _ hui]
            have hmem := ih _ b2 u (by rw [hbuf]; exact h1) h2
            have hmem2 : u ∈ (if id ∈ st.temp_txn_wf_ids then
                eraseSet st.exported_temp_txn_wf_status id
              else st.exported_temp_txn_wf_status) := hmem
            split at hmem2
            · exact eraseSet_sub _ _ _ hmem2
            · exact hmem2
      · rw [if_neg hg] at h2
        exact ih st (Nat.succ b2) u h1 h2

theorem flushInputsLoop_stays (ids : List String) :
    ∀ (st : BufState) (b : Nat) (u : String) (v : Value),
    lookupBuf st.workflow_inputs_buffer u = some v →
    u ∉ st.exported_temp_txn_wf_status →
    lookupBuf (flushInputsLoop st ids b).workflow_inputs_buffer u = some v := by
  induction ids with
  | nil =>
    intro st b u v h1 h2
    cases b <;> exact h1
  | cons id rest ih =>
    intro st b u v h1 h2
    cases b with
    | zero => exact h1
    | succ b2 =>
      unfold flushInputsLoop
      by_cases hg : id ∈ st.exported_temp_txn_wf_status
      · rw [if_pos hg]
        cases hl : lookupBuf st.workflow_inputs_buffer id with
        | none => exact ih st (Nat.succ b2) u v h1 h2
        | some inputs =>
          have hui : u ≠ id := fun he => h2 (he ▸ hg)
          have hbuf : lookupBuf (update_workflow_inputs
              { st with workflow_inputs_buffer :=
                  eraseKeyBuf st.workflow_inputs_buffer id }
              id inputs).workflow_inputs_buffer u =
              lookupBuf st.workflow_inputs_buffer u := by
            have heq : (update_workflow_inputs
                { st with workflow_inputs_buffer :=
                    eraseKeyBuf st.workflow_inputs_buffer id }
                id inputs).workflow_inputs_buffer =
                eraseKeyBuf st.workflow_inputs_buffer id := rfl
            rw [heq, lookupBuf_eraseKey_ne _ _ _ hui]
          have hexp : u ∉ (update_workflow_inputs
              { st with workflow_inputs_buffer :=
                  eraseKeyBuf st.workflow_inputs_buffer id }
              id inputs).exported_temp_txn_wf_status := by
            intro hu
            have hu2 : u ∈ (if id ∈ st.temp_txn_wf_ids then
                eraseSet st.exported_temp_txn_wf_status id
              else st.exported_temp_txn_wf_status) := hu
            apply h2
            split at hu2
            · exact eraseSet_sub _ _ _ hu2
            · exact hu2
          exact ih _ b2 u v (by rw [hbuf]; exact h1) hexp
      · rw [if_neg hg]
        exact ih st (Nat.succ b2) u v h1 h2

/-- C9: one pass of the buffered writer flushes the status buffer first, then
the inputs buffer; assuming every already-exported uuid and every existing
`workflow_inputs` row is backed by a `workflow_status` row, the same holds after
the pass — the writer never leaves a `workflow_inputs` row without its status
row.  A buffered inputs row is flushed only if, at flush time, its uuid is in
`exported_temp_txn_wf_status` (hence in particular in the claimed gate
`exported or not temp`), and a buffered row failing the gate is left in the
buffer unchanged for a later pass. -/
theorem flush_pass_fk_ordering (st : BufState)
    (hExp : ∀ u ∈ st.exported_temp_txn_wf_status,
      ∃ r ∈ st.db.workflow_status, r.workflow_uuid = u)
    (hFK : ∀ row ∈ st.db.workflow_inputs,
      ∃ r ∈ st.db.workflow_status, r.workflow_uuid = row.workflow_uuid) :
    flush_pass st = flush_workflow_inputs_buffer (flush_workflow_status_buffer st) ∧
    (∀ row ∈ (flush_pass st).db.workflow_inputs,
      ∃ r ∈ (flush_pass st).db.workflow_status,
        r.workflow_uuid = row.workflow_uuid) ∧
    (∀ u, (lookupBuf st.workflow_inputs_buffer u).isSome = true →
      lookupBuf (flush_pass st).workflow_inputs_buffer u = none →
      u ∈ (flush_workflow_status_buffer st).exported_temp_txn_wf_status ∨
        u ∉ (flush_workflow_status_buffer st).temp_txn_wf_ids) ∧
    (∀ u v, lookupBuf st.workflow_inputs_buffer u = some v →
      u ∉ (flush_workflow_status_buffer st).exported_temp_txn_wf_status →
      u ∈ (flush_workflow_status_buffer st).temp_txn_wf_ids →
      lookupBuf (flush_pass st).workflow_inputs_buffer u = some v) := by
  have hmid := flushStatusLoop_inv (st.workflow_status_buffer.map Prod.fst) st
    buffer_flush_batch_size hExp hFK
  have hframe := flushStatusLoop_frame (st.workflow_status_buffer.map Prod.fst) st
    buffer_flush_batch_size
  refine ⟨rfl, ?_, ?_, ?_⟩
  · exact (flushInputsLoop_inv
      ((flush_workflow_status_buffer st).workflow_inputs_buffer.map Prod.fst)
      (flush_workflow_status_buffer st) buffer_flush_batch_size
      hmid.1 hmid.2).2
  · intro u h1 h2
    left
    exact flushInputsLoop_flushed_exported
      ((flush_workflow_status_buffer st).workflow_inputs_buffer.map Prod.fst)
      (flush_workflow_status_buffer st) buffer_flush_batch_size u
      (by rw [show (flush_workflow_status_buffer st).workflow_inputs_buffer =
          st.workflow_inputs_buffer from hframe.1]; exact h1) h2
  · intro u v h1 h2 h3
    exact flushInputsLoop_stays
      ((flush_workflow_status_buffer st).workflow_inputs_buffer.map Prod.fst)
      (flush_workflow_status_buffer st) buffer_flush_batch_size u v
      (by rw [show (flush_workflow_status_buffer st).workflow_inputs_buffer =
          st.workflow_inputs_buffer from hframe.1]; exact h1) h2

/-- Witness for C9 at a buffered temp-txn workflow: the pass stores the buffered
inputs row for w, and that row is backed by a stored status row for w. -/
theorem flush_pass_fk_ordering_witness :
    ({ workflow_uuid := "w", inputs := .vstr "inputs" } : WorkflowInputsRow) ∈
      (flush_pass exampleBufSt).db.workflow_inputs ∧
    ∃ r ∈ (flush_pass exampleBufSt).db.workflow_status,
      r.workflow_uuid = ({ workflow_uuid := "w", inputs := .vstr "inputs" } :
        WorkflowInputsRow).workflow_uuid :=
  ⟨by decide,
    (flush_pass_fk_ordering exampleBufSt (by simp [exampleBufSt])
      (by simp [exampleBufSt, emptySysDB])).2.1
      { workflow_uuid := "w", inputs := .vstr "inputs" } (by decide)⟩

end DBOS
